import Mathlib

/-!
Verification development for the shilohwebsite repository.

The repository is a marketing website with an authenticated admin back-office.
Persistence is delegated to managed backends.  Two families of data-access code
exist in the sources: a relational backend accessed from the React pages
(tables `admin_requests`, `user_roles`, `gallery_albums`, `gallery_images`,
with the SQL migrations in the repository), and a document-store module
(`users`, `user_roles`, `admin_requests` collections keyed by user id).

This file gives a shallow embedding of both stores and of the operations the
application performs on them, and proves the stated properties of the
admin-request approval workflow, the gallery cascade, and the lightbox
navigation.  Remote calls that can fail are modelled either with an `Except`
result (when the failure is decided by the data, e.g. a uniqueness or foreign
key violation) or with an explicit success flag (when the failure is a network
or permission failure outside the data).
-/

/-- Request status, `status IN ('pending','approved','rejected')` in the SQL
check constraint and `RequestStatus` in the document-store module. -/
inductive RequestStatus where
  | pending
  | approved
  | rejected
deriving DecidableEq, Repr

namespace Rel

/-- A row of the `admin_requests` table (migration 20260107123119). -/
structure AdminRequestRow where
  id : String
  user_id : String
  email : String
  status : RequestStatus
  reviewed_by : Option String
  created_at : Nat
  reviewed_at : Option Nat
deriving DecidableEq, Repr

/-- A row of the `user_roles` table. -/
structure UserRoleRow where
  id : String
  user_id : String
  role : String
  created_at : Nat
deriving DecidableEq, Repr

/-- The relational store: the auth accounts and the two tables the
admin-request workflow touches. -/
structure DB where
  users : List String
  admin_requests : List AdminRequestRow
  user_roles : List UserRoleRow
deriving DecidableEq, Repr

/-- The empty store. -/
def DB.empty : DB := ⟨[], [], []⟩

/-- Account creation by the auth provider: a successful sign-up adds the new
account id. -/
def addUser (l : List String) (uid : String) : List String :=
  if uid ∈ l then l else l ++ [uid]

/-- Insert into `admin_requests`.  The migration declares `UNIQUE (user_id)`,
so the insert is rejected when a row for the same user already exists. -/
def insertAdminRequest (db : DB) (row : AdminRequestRow) : Except String DB :=
  if db.admin_requests.any (fun r => r.user_id == row.user_id) then
    Except.error "duplicate key value violates unique constraint"
  else
    Except.ok { db with admin_requests := db.admin_requests ++ [row] }

/-- Insert into `user_roles` (the insert issued by `handleApproveRequest` and
`handleAddAdmin`). -/
def insertUserRole (db : DB) (row : UserRoleRow) : DB :=
  { db with user_roles := db.user_roles ++ [row] }

/-- The update issued by `handleApproveRequest`: set `status`, `reviewed_at`
and `reviewed_by` on the rows whose `id` matches the request id. -/
def updateRequestStatus (db : DB) (requestId : String) (status : RequestStatus)
    (reviewedBy : String) (now : Nat) : DB :=
  { db with admin_requests := db.admin_requests.map (fun r =>
      if r.id == requestId then
        { r with status := status, reviewed_by := some reviewedBy,
                 reviewed_at := some now }
      else r) }

/-- Modelled from the spec: the privileged server-side `delete-user` function
is not part of the repository sources (only its invocations through
`supabase.functions.invoke` are). Per the spec it "deletes a user account and
all associated data"; deletion of the `admin_requests` row additionally
follows from the `ON DELETE CASCADE` clause of the migration. -/
def deleteUser (db : DB) (userId : String) : DB :=
  { users := db.users.filter (fun u => u ≠ userId)
    admin_requests := db.admin_requests.filter (fun r => r.user_id ≠ userId)
    user_roles := db.user_roles.filter (fun r => r.user_id ≠ userId) }

/-- `handleApproveRequest` in the Admins page: insert an `admin` role row for
the user, then set the request row to `approved` with the reviewer and review
time.  `roleOk` and `updateOk` are the outcomes of the two remote calls; when
a call fails the function only surfaces an error notification, so the store
keeps the state reached so far. -/
def handleApproveRequest (db : DB) (requestId userId roleRowId reviewerId : String)
    (now : Nat) (roleOk updateOk : Bool) : DB :=
  if roleOk then
    let db1 := insertUserRole db ⟨roleRowId, userId, "admin", now⟩
    if updateOk then updateRequestStatus db1 requestId RequestStatus.approved reviewerId now
    else db1
  else db

/-- `handleRejectRequest` in the Admins page: invoke the privileged
`delete-user` function on the requesting user; on failure nothing is
written. -/
def handleRejectRequest (db : DB) (requestId userId : String) (deleteOk : Bool) : DB :=
  if deleteOk then deleteUser db userId else db

/-- Result of `handleRemoveAdmin`: the resulting store and whether the
privileged `delete-user` function was invoked. -/
structure RemoveAdminResult where
  db : DB
  deleteInvoked : Bool
deriving DecidableEq, Repr

/-- `handleRemoveAdmin` in the Admins page: refuse to act when the target is
the signed-in user, otherwise invoke the privileged `delete-user` function. -/
def handleRemoveAdmin (db : DB) (currentUserId : Option String)
    (adminId adminUserId : String) (deleteOk : Bool) : RemoveAdminResult :=
  if currentUserId == some adminUserId then ⟨db, false⟩
  else if deleteOk then ⟨deleteUser db adminUserId, true⟩
  else ⟨db, true⟩

/-- The success path of `handleSignUp` in the Auth page: the auth provider
creates the account, then one `admin_requests` row with status `pending` is
inserted for it; a failed insert is only logged. -/
def handleSignUp (db : DB) (newUserId email requestRowId : String) (now : Nat) : DB :=
  let db1 := { db with users := addUser db.users newUserId }
  match insertAdminRequest db1 ⟨requestRowId, newUserId, email,
      RequestStatus.pending, none, now, none⟩ with
  | Except.ok db2 => db2
  | Except.error _ => db1

/-- Newest-first comparison on request rows, the order requested by the
`usePendingRequests` query (`order by created_at, ascending false`). -/
def newerFirst (a b : AdminRequestRow) : Prop :=
  b.created_at ≤ a.created_at

instance : DecidableRel newerFirst := fun a b => Nat.decLe _ _

instance : IsTotal AdminRequestRow newerFirst :=
  ⟨fun a b => (Nat.le_total b.created_at a.created_at)⟩

instance : IsTrans AdminRequestRow newerFirst :=
  ⟨fun _ _ _ h1 h2 => Nat.le_trans h2 h1⟩

/-- The query run by the `usePendingRequests` hook: the `admin_requests` rows
whose status is `pending`, ordered by `created_at` descending. -/
def usePendingRequests (db : DB) : List AdminRequestRow :=
  List.insertionSort newerFirst
    (db.admin_requests.filter (fun r => r.status == RequestStatus.pending))

/-- States of the relational store reachable through the operations the
application performs on the admin-request workflow. -/
inductive ReachableDB : DB → Prop where
  | empty : ReachableDB DB.empty
  | signUp {db} (uid email reqRowId : String) (now : Nat) :
      ReachableDB db → ReachableDB (handleSignUp db uid email reqRowId now)
  | approve {db} (requestId userId roleRowId reviewerId : String) (now : Nat)
      (roleOk updateOk : Bool) : ReachableDB db →
      ReachableDB (handleApproveRequest db requestId userId roleRowId reviewerId now roleOk updateOk)
  | reject {db} (requestId userId : String) (deleteOk : Bool) : ReachableDB db →
      ReachableDB (handleRejectRequest db requestId userId deleteOk)
  | removeAdmin {db} (currentUserId : Option String) (adminId adminUserId : String)
      (deleteOk : Bool) : ReachableDB db →
      ReachableDB (handleRemoveAdmin db currentUserId adminId adminUserId deleteOk).db
  | addRole {db} (row : UserRoleRow) : ReachableDB db → ReachableDB (insertUserRole db row)
  | addRequest {db db1} (row : AdminRequestRow) : ReachableDB db →
      insertAdminRequest db row = Except.ok db1 → ReachableDB db1
  | review {db} (requestId : String) (status : RequestStatus) (reviewedBy : String)
      (now : Nat) : ReachableDB db →
      ReachableDB (updateRequestStatus db requestId status reviewedBy now)
  | dropUser {db} (userId : String) : ReachableDB db → ReachableDB (deleteUser db userId)

/-- Each user has at most one `admin_requests` row: the user ids of the rows
are pairwise distinct (the `UNIQUE (user_id)` constraint). -/
def uniqueRequestUsers (db : DB) : Prop :=
  db.admin_requests.Pairwise (fun a b => a.user_id ≠ b.user_id)

end Rel

namespace Fs

/-- Roles in the document-store module: `'user' | 'admin' | 'super_admin'`. -/
inductive UserRole where
  | user
  | admin
  | super_admin
deriving DecidableEq, Repr

/-- A `user_roles` document (`UserRoleDoc` in the module). -/
structure UserRoleDoc where
  userId : String
  role : UserRole
  assignedBy : Option String
  assignedAt : Nat
deriving DecidableEq, Repr

/-- An `admin_requests` document (`AdminRequest` in the module).  The document
id is kept separately as the key of the collection entry. -/
structure AdminRequestDoc where
  userId : String
  email : String
  status : RequestStatus
  reviewedBy : Option String
  createdAt : Nat
  reviewedAt : Option Nat
deriving DecidableEq, Repr

/-- Write a document: create it, or overwrite the document with the same id.
Collections are kept ordered by document id, which is the default iteration
order of an unordered query over the store. -/
def setDoc {α : Type} : List (String × α) → String → α → List (String × α)
  | [], k, v => [(k, v)]
  | (k0, v0) :: t, k, v =>
    if k = k0 then (k, v) :: t
    else if k < k0 then (k, v) :: (k0, v0) :: t
    else (k0, v0) :: setDoc t k v

/-- Update a document in place; the call fails when no document with the given
id exists. -/
def updateDocF {α : Type} (l : List (String × α)) (k : String) (f : α → α) :
    Except String (List (String × α)) :=
  if l.any (fun p => p.1 == k) then
    Except.ok (l.map (fun p => if p.1 == k then (p.1, f p.2) else p))
  else
    Except.error "No document to update"

/-- The document store: the `users`, `user_roles` and `admin_requests`
collections, all keyed by user id. -/
structure FSState where
  users : List String
  user_roles : List (String × UserRoleDoc)
  admin_requests : List (String × AdminRequestDoc)
deriving DecidableEq, Repr

/-- The empty store. -/
def FSState.empty : FSState := ⟨[], [], []⟩

/-- `getUserRole`: read the role document of a user. -/
def getUserRole (fs : FSState) (userId : String) : Option UserRole :=
  (fs.user_roles.lookup userId).map (fun d => d.role)

/-- `setUserRole`: write the role document of a user (create or overwrite). -/
def setUserRole (fs : FSState) (userId : String) (role : UserRole)
    (assignedBy : String) (now : Nat) : FSState :=
  { fs with user_roles :=
      setDoc fs.user_roles userId ⟨userId, role, some assignedBy, now⟩ }

/-- `getAllAdmins`: the role documents whose role is `admin` or
`super_admin`. -/
def getAllAdmins (fs : FSState) : List UserRoleDoc :=
  (fs.user_roles.filter (fun p =>
    p.2.role == UserRole.admin || p.2.role == UserRole.super_admin)).map (fun p => p.2)

/-- `createUserProfile`: write the profile document, then, when no admin or
super-admin exists yet, grant the new user the `super_admin` role on behalf of
`system`. -/
def createUserProfile (fs : FSState) (uid : String) (now : Nat) : FSState :=
  let fs1 := { fs with users := Rel.addUser fs.users uid }
  if (getAllAdmins fs1).length == 0 then
    setUserRole fs1 uid UserRole.super_admin "system" now
  else fs1

/-- `createAdminRequest`: write the request document of a user, keyed by the
user id, with status `pending`. -/
def createAdminRequest (fs : FSState) (userId email : String) (now : Nat) : FSState :=
  { fs with admin_requests :=
      setDoc fs.admin_requests userId ⟨userId, email, RequestStatus.pending, none, now, none⟩ }

/-- `getPendingAdminRequests`: the request documents whose status is
`pending`, in the order the query returns them (document-id order; the query
states no ordering). -/
def getPendingAdminRequests (fs : FSState) : List AdminRequestDoc :=
  (fs.admin_requests.filter (fun p => p.2.status == RequestStatus.pending)).map
    (fun p => p.2)

/-- `updateAdminRequest`: set status, reviewer and review time on the request
document of the user; when the new status is `approved`, additionally set the
role of the user to `admin`. -/
def updateAdminRequest (fs : FSState) (userId : String) (status : RequestStatus)
    (reviewedBy : String) (now : Nat) : Except String FSState := do
  let reqs ← updateDocF fs.admin_requests userId (fun r =>
    { r with status := status, reviewedBy := some reviewedBy, reviewedAt := some now })
  let fs1 := { fs with admin_requests := reqs }
  if status == RequestStatus.approved then
    return setUserRole fs1 userId UserRole.admin reviewedBy now
  else
    return fs1

/-- `approveAdminRequest`: wrapper calling `updateAdminRequest` with
`approved` (the request id argument is unused in the source as well). -/
def approveAdminRequest (fs : FSState) (requestId userId reviewedBy : String)
    (now : Nat) : Except String FSState :=
  updateAdminRequest fs userId RequestStatus.approved reviewedBy now

/-- `denyAdminRequest`: wrapper calling `updateAdminRequest` with `rejected`
(the request id argument is unused in the source as well). -/
def denyAdminRequest (fs : FSState) (requestId userId reviewedBy : String)
    (now : Nat) : Except String FSState :=
  updateAdminRequest fs userId RequestStatus.rejected reviewedBy now

end Fs

namespace Gal

/-- A row of the `gallery_albums` table (migration 20260106171759). -/
structure GalleryAlbum where
  id : String
  title : String
  description : Option String
  cover_image_url : Option String
  is_active : Bool
  display_order : Int
  created_at : Nat
deriving DecidableEq, Repr

/-- A row of the `gallery_images` table; `album_id` references
`gallery_albums (id)` with `ON DELETE CASCADE`. -/
structure GalleryImage where
  id : String
  album_id : String
  image_url : String
  caption : Option String
  display_order : Int
deriving DecidableEq, Repr

/-- The gallery part of the relational store. -/
structure GalleryDB where
  gallery_albums : List GalleryAlbum
  gallery_images : List GalleryImage
deriving DecidableEq, Repr

/-- The empty gallery store. -/
def GalleryDB.empty : GalleryDB := ⟨[], []⟩

/-- The insert issued by `createAlbumMutation`. -/
def createAlbum (g : GalleryDB) (album : GalleryAlbum) : GalleryDB :=
  { g with gallery_albums := g.gallery_albums ++ [album] }

/-- The delete issued by `deleteAlbumMutation`, together with the
`ON DELETE CASCADE` behaviour of the foreign key: the rows of
`gallery_images` whose `album_id` matches the deleted album are removed by
the store. -/
def deleteAlbum (g : GalleryDB) (albumId : String) : GalleryDB :=
  { gallery_albums := g.gallery_albums.filter (fun a => a.id ≠ albumId)
    gallery_images := g.gallery_images.filter (fun i => i.album_id ≠ albumId) }

/-- The insert issued by `handleFileUpload` for each uploaded file.  The
foreign key on `album_id` rejects an image whose album does not exist. -/
def insertGalleryImage (g : GalleryDB) (img : GalleryImage) : Except String GalleryDB :=
  if g.gallery_albums.any (fun a => a.id == img.album_id) then
    Except.ok { g with gallery_images := g.gallery_images ++ [img] }
  else
    Except.error "violates foreign key constraint"

/-- The delete issued by `deleteImageMutation`. -/
def deleteImage (g : GalleryDB) (imageId : String) : GalleryDB :=
  { g with gallery_images := g.gallery_images.filter (fun i => i.id ≠ imageId) }

/-- The update issued by `toggleAlbumVisibility`. -/
def setAlbumActive (g : GalleryDB) (albumId : String) (isActive : Bool) : GalleryDB :=
  { g with gallery_albums := g.gallery_albums.map (fun a =>
      if a.id == albumId then { a with is_active := isActive } else a) }

/-- The update issued by `handleFileUpload` when the album has no cover
image yet. -/
def setAlbumCover (g : GalleryDB) (albumId url : String) : GalleryDB :=
  { g with gallery_albums := g.gallery_albums.map (fun a =>
      if a.id == albumId then { a with cover_image_url := some url } else a) }

/-- States of the gallery store reachable through the operations the
application performs. -/
inductive Reachable : GalleryDB → Prop where
  | empty : Reachable GalleryDB.empty
  | createAlbum {g} (album : GalleryAlbum) : Reachable g → Reachable (createAlbum g album)
  | deleteAlbum {g} (albumId : String) : Reachable g → Reachable (deleteAlbum g albumId)
  | insertImage {g g1} (img : GalleryImage) : Reachable g →
      insertGalleryImage g img = Except.ok g1 → Reachable g1
  | deleteImage {g} (imageId : String) : Reachable g → Reachable (deleteImage g imageId)
  | setActive {g} (albumId : String) (isActive : Bool) : Reachable g →
      Reachable (setAlbumActive g albumId isActive)
  | setCover {g} (albumId url : String) : Reachable g →
      Reachable (setAlbumCover g albumId url)

/-- Referential integrity of the gallery: every image row references an
existing album row. -/
def imagesHaveAlbums (g : GalleryDB) : Prop :=
  ∀ img ∈ g.gallery_images, ∃ a ∈ g.gallery_albums, a.id = img.album_id

end Gal

namespace Lightbox

/-- The two navigation directions of the lightbox. -/
inductive Direction where
  | prev
  | next
deriving DecidableEq, Repr

/-- `navigateLightbox` in the public Gallery page, on an open lightbox: the
new index shown, as a function of the current index and the number of images
of the album. -/
def navigateLightbox (lightboxIndex len : Nat) (d : Direction) : Nat :=
  match d with
  | Direction.prev => if lightboxIndex > 0 then lightboxIndex - 1 else len - 1
  | Direction.next => if lightboxIndex < len - 1 then lightboxIndex + 1 else 0

end Lightbox

/-! Concrete stores used to evaluate the operations on explicit inputs. -/

/-- A pending admin-request document for the account u1. -/
def docOnePending : Fs.AdminRequestDoc :=
  ⟨"u1", "u1@example.org", RequestStatus.pending, none, 1, none⟩

/-- A document store holding one account with one pending admin request. -/
def fsOnePending : Fs.FSState :=
  ⟨["u1"], [], [("u1", docOnePending)]⟩

/-- The document store reached from `fsOnePending` by the deny operation. -/
def fsOneRejected : Fs.FSState :=
  ⟨["u1"], [], [("u1", ⟨"u1", "u1@example.org", RequestStatus.rejected, some "boss", 1, some 5⟩)]⟩

/-- A document store with three pending requests whose document-id order
(a, b, c) disagrees with their creation-time order (5, 3, 4). -/
def fsThreePending : Fs.FSState :=
  ⟨["a", "b", "c"], [],
   [("a", ⟨"a", "a@example.org", RequestStatus.pending, none, 5, none⟩),
    ("b", ⟨"b", "b@example.org", RequestStatus.pending, none, 3, none⟩),
    ("c", ⟨"c", "c@example.org", RequestStatus.pending, none, 4, none⟩)]⟩

/-- A relational store holding one account with one pending admin request. -/
def dbOnePending : Rel.DB :=
  ⟨["u1"], [⟨"req1", "u1", "u1@example.org", RequestStatus.pending, none, 1, none⟩], []⟩

/-- The pending request row of `dbOnePending`. -/
def rowOnePending : Rel.AdminRequestRow :=
  ⟨"req1", "u1", "u1@example.org", RequestStatus.pending, none, 1, none⟩

/-- A gallery album used as a concrete input. -/
def albumA : Gal.GalleryAlbum :=
  ⟨"alb1", "Sunday Service", none, none, true, 0, 1⟩

/-! Helper lemmas on association lists keyed by document id. -/

namespace Fs

theorem lookup_setDoc {α : Type} (l : List (String × α)) (k : String) (v : α) :
    (setDoc l k v).lookup k = some v := by
  induction l with
  | nil => simp [setDoc, List.lookup]
  | cons p t ih =>
    obtain ⟨k0, v0⟩ := p
    by_cases h1 : k = k0
    · simp [setDoc, h1, List.lookup]
    · have hne : (k == k0) = false := by simpa using h1
      by_cases h2 : k < k0
      · simp [setDoc, h1, h2, List.lookup]
      · simp [setDoc, h1, h2, List.lookup, hne, ih]

theorem any_key_of_lookup {α : Type} {l : List (String × α)} {k : String} {v : α}
    (h : l.lookup k = some v) : l.any (fun p => p.1 == k) = true := by
  induction l with
  | nil => simp [List.lookup] at h
  | cons p t ih =>
    obtain ⟨k0, v0⟩ := p
    by_cases h1 : k = k0
    · simp [h1]
    · have hne : (k == k0) = false := by simpa using h1
      simp only [List.lookup, hne] at h
      have hne2 : (k0 == k) = false := by simpa using fun e => h1 e.symm
      simpa [hne2] using ih h

theorem lookup_map_update {α : Type} {l : List (String × α)} {k : String} {v : α}
    (f : α → α) (h : l.lookup k = some v) :
    (l.map (fun p => if p.1 == k then (p.1, f p.2) else p)).lookup k = some (f v) := by
  induction l with
  | nil => simp at h
  | cons p t ih =>
    obtain ⟨k0, v0⟩ := p
    by_cases h1 : k = k0
    · subst h1
      simp only [List.lookup_cons, beq_self_eq_true] at h
      injection h with h
      subst h
      simp [List.lookup_cons]
    · have hne : (k == k0) = false := by simpa using h1
      have hne2 : (k0 == k) = false := by simpa using fun e => h1 e.symm
      simp only [List.lookup_cons, hne] at h
      simp only [List.map_cons, hne2, Bool.false_eq_true, if_false]
      simp only [List.lookup_cons, hne]
      exact ih h

theorem lookup_eq_none_forall {α : Type} {l : List (String × α)} {k : String}
    (h : l.lookup k = none) : ∀ p ∈ l, p.1 ≠ k := by
  intro p hp e
  have h2 := List.lookup_eq_none_iff.mp h p hp
  rw [bne_iff_ne] at h2
  exact h2 e.symm

theorem filter_setDoc_fresh {α : Type} {l : List (String × α)} {k : String} {v : α}
    (h : ∀ p ∈ l, p.1 ≠ k) :
    (setDoc l k v).filter (fun p => p.1 == k) = [(k, v)] := by
  induction l with
  | nil => simp [setDoc]
  | cons p t ih =>
    obtain ⟨k0, v0⟩ := p
    have hk0 : k0 ≠ k := h (k0, v0) (by simp)
    have ht : ∀ p ∈ t, p.1 ≠ k := fun q hq => h q (by simp [hq])
    by_cases h1 : k = k0
    · exact absurd h1.symm hk0
    · by_cases h2 : k < k0
      · have : t.filter (fun p => p.1 == k) = [] := by
          simp only [List.filter_eq_nil_iff]
          intro q hq
          simpa using ht q hq
        simp [setDoc, h1, h2, hk0, this]
      · simp [setDoc, h1, h2, hk0, ih ht]

end Fs

/-- On a store holding a request document for the user, `updateAdminRequest`
succeeds; the request document carries the new status, reviewer and review
time, the accounts are untouched, and exactly when the new status is
`approved` the user is granted the `admin` role. -/
theorem updateAdminRequest_ok {fs : Fs.FSState} {k : String} {q : Fs.AdminRequestDoc}
    (hq : fs.admin_requests.lookup k = some q) (st : RequestStatus) (rb : String) (now : Nat) :
    ∃ fs1, Fs.updateAdminRequest fs k st rb now = Except.ok fs1 ∧
      fs1.users = fs.users ∧
      fs1.admin_requests.lookup k =
        some { q with status := st, reviewedBy := some rb, reviewedAt := some now } ∧
      (st = RequestStatus.approved → Fs.getUserRole fs1 k = some Fs.UserRole.admin) ∧
      (st ≠ RequestStatus.approved → fs1.user_roles = fs.user_roles) := by
  have hany := Fs.any_key_of_lookup hq
  have hlk := Fs.lookup_map_update
    (fun r => { r with status := st, reviewedBy := some rb, reviewedAt := some now }) hq
  by_cases hst : st = RequestStatus.approved
  · refine ⟨Fs.setUserRole { fs with admin_requests := fs.admin_requests.map (fun p => if p.1 == k then (p.1, { p.2 with status := st, reviewedBy := some rb, reviewedAt := some now }) else p) } k Fs.UserRole.admin rb now, ?_, rfl, ?_, fun _ => ?_, fun hn => absurd hst hn⟩
    · subst hst
      simp only [Fs.updateAdminRequest, Fs.updateDocF, hany, if_true]
      rfl
    · simp only [Fs.setUserRole]
      exact hlk
    · simp [Fs.getUserRole, Fs.setUserRole, Fs.lookup_setDoc]
  · have hstb : (st == RequestStatus.approved) = false := by
      cases st <;> simp_all
    refine ⟨{ fs with admin_requests := fs.admin_requests.map (fun p => if p.1 == k then (p.1, { p.2 with status := st, reviewedBy := some rb, reviewedAt := some now }) else p) }, ?_, rfl, ?_, fun he => absurd he hst, fun _ => rfl⟩
    · simp only [Fs.updateAdminRequest, Fs.updateDocF, hany, if_true, hstb]
      rfl
    · exact hlk

/-- Claim C10: for a non-empty image list and an in-range lightbox index the
navigation returns an in-range index; `next` from the last image wraps to 0
and `prev` from 0 wraps to the last index. -/
theorem C10_navigateLightbox_in_range (i n : Nat) (d : Lightbox.Direction)
    (hn : 1 ≤ n) (hi : i < n) :
    Lightbox.navigateLightbox i n d < n ∧
    Lightbox.navigateLightbox (n - 1) n Lightbox.Direction.next = 0 ∧
    Lightbox.navigateLightbox 0 n Lightbox.Direction.prev = n - 1 := by
  refine ⟨?_, ?_, ?_⟩
  · cases d <;> simp only [Lightbox.navigateLightbox] <;> split <;> omega
  · simp only [Lightbox.navigateLightbox]
    split <;> omega
  · simp [Lightbox.navigateLightbox]

theorem C10_witness :
    1 ≤ 3 ∧ 2 < 3 ∧
    (Lightbox.navigateLightbox 2 3 Lightbox.Direction.next < 3 ∧
     Lightbox.navigateLightbox (3 - 1) 3 Lightbox.Direction.next = 0 ∧
     Lightbox.navigateLightbox 0 3 Lightbox.Direction.prev = 3 - 1) :=
  ⟨by decide, by decide, C10_navigateLightbox_in_range 2 3 Lightbox.Direction.next (by decide) (by decide)⟩

/-- Claim C9: when the target of the remove-admin operation equals the
signed-in user, no delete call is made and the store is unchanged. -/
theorem C9_handleRemoveAdmin_self_noop (db : Rel.DB) (u adminId : String) (deleteOk : Bool) :
    Rel.handleRemoveAdmin db (some u) adminId u deleteOk = ⟨db, false⟩ := by
  simp [Rel.handleRemoveAdmin]

/-- Claim C8: when a profile is created while no user holds the admin or
super-admin role, the new user is granted the super-admin role. -/
theorem C8_first_user_super_admin (fs : Fs.FSState) (uid : String) (now : Nat)
    (h : Fs.getAllAdmins fs = []) :
    Fs.getUserRole (Fs.createUserProfile fs uid now) uid =
      some Fs.UserRole.super_admin := by
  have h1 : Fs.getAllAdmins { fs with users := Rel.addUser fs.users uid } = [] := h
  simp only [Fs.createUserProfile, h1, List.length_nil]
  simp only [Nat.zero_eq, beq_self_eq_true, if_true]
  simp [Fs.getUserRole, Fs.setUserRole, Fs.lookup_setDoc]

theorem C8_witness :
    Fs.getAllAdmins Fs.FSState.empty = [] ∧
    Fs.getUserRole (Fs.createUserProfile Fs.FSState.empty "u1" 0) "u1" =
      some Fs.UserRole.super_admin :=
  ⟨rfl, C8_first_user_super_admin Fs.FSState.empty "u1" 0 rfl⟩

/-- Claim C1: approving a pending request grants the admin role and marks the
request approved with reviewer and review time; this holds for the relational
approve sequence and for the document-store update. -/
theorem C1_approve_grants_admin
    (db : Rel.DB) (r : Rel.AdminRequestRow) (uid roleRowId reviewer : String) (now : Nat)
    (hr : r ∈ db.admin_requests) (hp : r.status = RequestStatus.pending)
    (fs : Fs.FSState) (q : Fs.AdminRequestDoc) (fuid freviewer : String) (fnow : Nat)
    (hq : fs.admin_requests.lookup fuid = some q) (hqp : q.status = RequestStatus.pending) :
    ((Rel.handleApproveRequest db r.id uid roleRowId reviewer now true true).user_roles.any
        (fun rr => rr.user_id == uid && rr.role == "admin") = true ∧
     (∀ r1 ∈ (Rel.handleApproveRequest db r.id uid roleRowId reviewer now true true).admin_requests,
        r1.id = r.id → r1.status = RequestStatus.approved ∧
          r1.reviewed_by = some reviewer ∧ r1.reviewed_at = some now)) ∧
    (∃ fs1, Fs.updateAdminRequest fs fuid RequestStatus.approved freviewer fnow = Except.ok fs1 ∧
       Fs.getUserRole fs1 fuid = some Fs.UserRole.admin ∧
       ∃ q1, fs1.admin_requests.lookup fuid = some q1 ∧
         q1.status = RequestStatus.approved ∧ q1.reviewedBy = some freviewer ∧
         q1.reviewedAt = some fnow) := by
  constructor
  · constructor
    · simp [Rel.handleApproveRequest, Rel.insertUserRole, Rel.updateRequestStatus]
    · intro r1 h1 hid
      simp only [Rel.handleApproveRequest, Rel.insertUserRole, Rel.updateRequestStatus,
        if_true, List.mem_map] at h1
      obtain ⟨r0, hr0, rfl⟩ := h1
      by_cases he : r0.id = r.id
      · simp [he]
      · simp only [show (r0.id == r.id) = false from by simpa using he, Bool.false_eq_true,
          if_false] at hid ⊢
        exact absurd hid he
  · obtain ⟨fs1, hok, hu, hlk, hrole, hnr⟩ := updateAdminRequest_ok hq RequestStatus.approved freviewer fnow
    exact ⟨fs1, hok, hrole rfl, ⟨_, hlk, rfl, rfl, rfl⟩⟩

theorem C1_witness :
    rowOnePending ∈ dbOnePending.admin_requests ∧
    rowOnePending.status = RequestStatus.pending ∧
    fsOnePending.admin_requests.lookup "u1" = some docOnePending ∧
    docOnePending.status = RequestStatus.pending ∧
    (((Rel.handleApproveRequest dbOnePending rowOnePending.id "u1" "role1" "boss" 5 true true).user_roles.any
        (fun rr => rr.user_id == "u1" && rr.role == "admin") = true ∧
      (∀ r1 ∈ (Rel.handleApproveRequest dbOnePending rowOnePending.id "u1" "role1" "boss" 5 true true).admin_requests,
         r1.id = rowOnePending.id → r1.status = RequestStatus.approved ∧
           r1.reviewed_by = some "boss" ∧ r1.reviewed_at = some 5)) ∧
     (∃ fs1, Fs.updateAdminRequest fsOnePending "u1" RequestStatus.approved "fboss" 7 = Except.ok fs1 ∧
        Fs.getUserRole fs1 "u1" = some Fs.UserRole.admin ∧
        ∃ q1, fs1.admin_requests.lookup "u1" = some q1 ∧
          q1.status = RequestStatus.approved ∧ q1.reviewedBy = some "fboss" ∧
          q1.reviewedAt = some 7)) :=
  ⟨by decide, rfl, rfl, rfl,
   C1_approve_grants_admin dbOnePending rowOnePending "u1" "role1" "boss" 5 (by decide) rfl
     fsOnePending docOnePending "u1" "fboss" 7 rfl rfl⟩

/-- Claim C3: when the role insert succeeds and the status update fails, the
approve operation leaves the request table untouched (the pending request row
is still there, unchanged) while the admin role row was already inserted, and
no compensating write is performed: the accounts and the role table keep
exactly the state reached after the first call. -/
theorem C3_approve_not_atomic
    (db : Rel.DB) (r : Rel.AdminRequestRow) (uid roleRowId reviewer : String) (now : Nat)
    (hr : r ∈ db.admin_requests) (hp : r.status = RequestStatus.pending) :
    (Rel.handleApproveRequest db r.id uid roleRowId reviewer now true false).admin_requests
        = db.admin_requests ∧
    (Rel.handleApproveRequest db r.id uid roleRowId reviewer now true false).user_roles
        = db.user_roles ++ [⟨roleRowId, uid, "admin", now⟩] ∧
    (Rel.handleApproveRequest db r.id uid roleRowId reviewer now true false).users
        = db.users ∧
    r ∈ (Rel.handleApproveRequest db r.id uid roleRowId reviewer now true false).admin_requests ∧
    r.status = RequestStatus.pending := by
  refine ⟨rfl, rfl, rfl, ?_, hp⟩
  simpa [Rel.handleApproveRequest, Rel.insertUserRole] using hr

theorem C3_witness :
    rowOnePending ∈ dbOnePending.admin_requests ∧
    rowOnePending.status = RequestStatus.pending ∧
    ((Rel.handleApproveRequest dbOnePending rowOnePending.id "u1" "role1" "boss" 5 true false).admin_requests
        = dbOnePending.admin_requests ∧
     (Rel.handleApproveRequest dbOnePending rowOnePending.id "u1" "role1" "boss" 5 true false).user_roles
        = dbOnePending.user_roles ++ [⟨"role1", "u1", "admin", 5⟩] ∧
     (Rel.handleApproveRequest dbOnePending rowOnePending.id "u1" "role1" "boss" 5 true false).users
        = dbOnePending.users ∧
     rowOnePending ∈ (Rel.handleApproveRequest dbOnePending rowOnePending.id "u1" "role1" "boss" 5 true false).admin_requests ∧
     rowOnePending.status = RequestStatus.pending) :=
  ⟨by decide, rfl,
   C3_approve_not_atomic dbOnePending rowOnePending "u1" "role1" "boss" 5 (by decide) rfl⟩

/-- Claim C2 counterexample: on a store holding one account with its pending
request, the document-store deny operation succeeds but the rejected account
still exists afterwards (the operation merely marks the request rejected),
contradicting that rejection removes the account. -/
theorem C2_counterexample :
    Fs.denyAdminRequest fsOnePending "req1" "u1" "boss" 5 = Except.ok fsOneRejected ∧
    "u1" ∈ fsOneRejected.users ∧ fsOneRejected.users = fsOnePending.users := by
  refine ⟨rfl, ?_, rfl⟩
  decide

/-- Claim C2 (amended): rejecting through the admin page invokes the
privileged delete-user function, after which the account and every row
associated with it are gone; the document-store deny operation instead only
marks the request rejected (recording reviewer and review time) and leaves
the account and the role documents in place. -/
theorem C2_reject_amended
    (db : Rel.DB) (reqId uid : String)
    (fs : Fs.FSState) (q : Fs.AdminRequestDoc) (fuid frev rid : String) (fnow : Nat)
    (hq : fs.admin_requests.lookup fuid = some q) :
    (uid ∉ (Rel.handleRejectRequest db reqId uid true).users ∧
     (∀ r ∈ (Rel.handleRejectRequest db reqId uid true).admin_requests, r.user_id ≠ uid) ∧
     (∀ rr ∈ (Rel.handleRejectRequest db reqId uid true).user_roles, rr.user_id ≠ uid)) ∧
    (∃ fs1, Fs.denyAdminRequest fs rid fuid frev fnow = Except.ok fs1 ∧
       fs1.users = fs.users ∧
       fs1.admin_requests.lookup fuid =
         some { q with status := RequestStatus.rejected, reviewedBy := some frev, reviewedAt := some fnow } ∧
       fs1.user_roles = fs.user_roles) := by
  constructor
  · refine ⟨?_, ?_, ?_⟩
    · simp [Rel.handleRejectRequest, Rel.deleteUser]
    · intro r hrr
      simp only [Rel.handleRejectRequest, Rel.deleteUser, if_true, List.mem_filter,
        decide_eq_true_eq] at hrr
      exact hrr.2
    · intro rr hrr
      simp only [Rel.handleRejectRequest, Rel.deleteUser, if_true, List.mem_filter,
        decide_eq_true_eq] at hrr
      exact hrr.2
  · obtain ⟨fs1, hok, hu, hlk, _, hnr⟩ :=
      updateAdminRequest_ok hq RequestStatus.rejected frev fnow
    exact ⟨fs1, hok, hu, hlk, hnr (by decide)⟩

theorem C2_witness :
    fsOnePending.admin_requests.lookup "u1" = some docOnePending ∧
    (("u1" ∉ (Rel.handleRejectRequest dbOnePending "req1" "u1" true).users ∧
      (∀ r ∈ (Rel.handleRejectRequest dbOnePending "req1" "u1" true).admin_requests, r.user_id ≠ "u1") ∧
      (∀ rr ∈ (Rel.handleRejectRequest dbOnePending "req1" "u1" true).user_roles, rr.user_id ≠ "u1")) ∧
     (∃ fs1, Fs.denyAdminRequest fsOnePending "req1" "u1" "boss" 5 = Except.ok fs1 ∧
        fs1.users = fsOnePending.users ∧
        fs1.admin_requests.lookup "u1" =
          some { docOnePending with status := RequestStatus.rejected, reviewedBy := some "boss", reviewedAt := some 5 } ∧
        fs1.user_roles = fsOnePending.user_roles)) :=
  ⟨rfl, C2_reject_amended dbOnePending "req1" "u1" fsOnePending docOnePending "u1" "boss" "req1" 5 rfl⟩

/-- Claim C4: a successful sign-up of a fresh account creates exactly one
admin request row for it, with status pending; likewise the document-store
`createAdminRequest` leaves exactly one pending request document for a user
not yet holding one. -/
theorem C4_signup_creates_one_pending
    (db : Rel.DB) (uid email reqRowId : String) (now : Nat)
    (hfresh : ∀ r ∈ db.admin_requests, r.user_id ≠ uid)
    (fs : Fs.FSState) (fuid femail : String) (fnow : Nat)
    (hffresh : fs.admin_requests.lookup fuid = none) :
    (Rel.handleSignUp db uid email reqRowId now).admin_requests.filter
        (fun r => r.user_id == uid) =
      [⟨reqRowId, uid, email, RequestStatus.pending, none, now, none⟩] ∧
    ((Fs.createAdminRequest fs fuid femail fnow).admin_requests.filter
        (fun p => p.1 == fuid)).map (fun p => p.2) =
      [⟨fuid, femail, RequestStatus.pending, none, fnow, none⟩] := by
  constructor
  · have hany : db.admin_requests.any (fun r => r.user_id == uid) = false := by
      simp only [List.any_eq_false]
      intro r hrr
      simpa using hfresh r hrr
    have hnil : db.admin_requests.filter (fun r => r.user_id == uid) = [] := by
      simp only [List.filter_eq_nil_iff]
      intro r hrr
      simpa using hfresh r hrr
    simp [Rel.handleSignUp, Rel.insertAdminRequest, hany, List.filter_append, hnil]
  · have hfa := Fs.lookup_eq_none_forall hffresh
    rw [Fs.createAdminRequest, Fs.filter_setDoc_fresh hfa]
    simp

theorem C4_witness :
    (∀ r ∈ Rel.DB.empty.admin_requests, r.user_id ≠ "u1") ∧
    Fs.FSState.empty.admin_requests.lookup "u1" = none ∧
    ((Rel.handleSignUp Rel.DB.empty "u1" "u1@example.org" "req1" 0).admin_requests.filter
        (fun r => r.user_id == "u1") =
      [⟨"req1", "u1", "u1@example.org", RequestStatus.pending, none, 0, none⟩] ∧
     ((Fs.createAdminRequest Fs.FSState.empty "u1" "u1@example.org" 0).admin_requests.filter
        (fun p => p.1 == "u1")).map (fun p => p.2) =
      [⟨"u1", "u1@example.org", RequestStatus.pending, none, 0, none⟩]) :=
  ⟨by simp [Rel.DB.empty], rfl,
   C4_signup_creates_one_pending Rel.DB.empty "u1" "u1@example.org" "req1" 0
     (by simp [Rel.DB.empty]) Fs.FSState.empty "u1" "u1@example.org" 0 rfl⟩

/-- Claim C6 counterexample: on a store with three pending requests whose
document-id order disagrees with their creation times, the document-store
pending read returns creation times 5, 3, 4 — neither ascending nor
descending, so the result is not ordered by creation time. -/
theorem C6_counterexample :
    (Fs.getPendingAdminRequests fsThreePending).map (fun q => q.createdAt) = [5, 3, 4] ∧
    ¬ ((Fs.getPendingAdminRequests fsThreePending).map (fun q => q.createdAt)).Pairwise
        (fun a b => a ≤ b) ∧
    ¬ ((Fs.getPendingAdminRequests fsThreePending).map (fun q => q.createdAt)).Pairwise
        (fun a b => b ≤ a) := by
  refine ⟨rfl, ?_, ?_⟩ <;> decide

/-- Claim C6 (amended): the pending-requests query of the admin UI returns
exactly the request rows whose status is pending, ordered by creation time
newest first; the document-store pending read returns exactly the pending
request documents but in document order, without ordering by creation
time. -/
theorem C6_pending_read_amended (db : Rel.DB) (fs : Fs.FSState) :
    (Rel.usePendingRequests db).Perm
        (db.admin_requests.filter (fun r => r.status == RequestStatus.pending)) ∧
    (∀ r, r ∈ Rel.usePendingRequests db ↔
        r ∈ db.admin_requests ∧ r.status = RequestStatus.pending) ∧
    (Rel.usePendingRequests db).Pairwise Rel.newerFirst ∧
    (∀ q, q ∈ Fs.getPendingAdminRequests fs ↔
        ∃ k, (k, q) ∈ fs.admin_requests ∧ q.status = RequestStatus.pending) := by
  refine ⟨List.perm_insertionSort _ _, ?_, List.sorted_insertionSort _ _, ?_⟩
  · intro r
    simp [Rel.usePendingRequests, List.mem_filter]
  · intro q
    constructor
    · intro hm
      simp only [Fs.getPendingAdminRequests, List.mem_map, List.mem_filter] at hm
      obtain ⟨⟨k, q0⟩, ⟨hmem, hst⟩, rfl⟩ := hm
      exact ⟨k, hmem, by simpa using hst⟩
    · intro ⟨k, hmem, hst⟩
      simp only [Fs.getPendingAdminRequests, List.mem_map, List.mem_filter]
      exact ⟨(k, q), ⟨hmem, by simpa using hst⟩, rfl⟩

theorem uniqueRequestUsers_review {db : Rel.DB} (h : Rel.uniqueRequestUsers db)
    (requestId : String) (status : RequestStatus) (reviewedBy : String) (now : Nat) :
    Rel.uniqueRequestUsers (Rel.updateRequestStatus db requestId status reviewedBy now) := by
  unfold Rel.uniqueRequestUsers at h ⊢
  simp only [Rel.updateRequestStatus]
  rw [List.pairwise_map]
  refine h.imp ?_
  intro a b hab
  split <;> split <;> simpa using hab

theorem uniqueRequestUsers_deleteUser {db : Rel.DB} (h : Rel.uniqueRequestUsers db)
    (userId : String) : Rel.uniqueRequestUsers (Rel.deleteUser db userId) :=
  List.Pairwise.sublist (List.filter_sublist _) h

theorem uniqueRequestUsers_insert {db db1 : Rel.DB} {row : Rel.AdminRequestRow}
    (h : Rel.uniqueRequestUsers db)
    (hok : Rel.insertAdminRequest db row = Except.ok db1) :
    Rel.uniqueRequestUsers db1 := by
  unfold Rel.insertAdminRequest at hok
  split at hok
  · cases hok
  · cases hok
    rename_i hany
    unfold Rel.uniqueRequestUsers at h ⊢
    rw [List.pairwise_append]
    refine ⟨h, List.pairwise_singleton _ _, ?_⟩
    intro a ha b hb
    simp only [List.mem_singleton] at hb
    subst hb
    intro he
    refine hany (List.any_of_mem ha ?_)
    simpa using he

theorem handleSignUp_eq (db : Rel.DB) (uid email reqRowId : String) (now : Nat) :
    Rel.handleSignUp db uid email reqRowId now =
      match Rel.insertAdminRequest { db with users := Rel.addUser db.users uid }
          ⟨reqRowId, uid, email, RequestStatus.pending, none, now, none⟩ with
      | Except.ok db2 => db2
      | Except.error _ => { db with users := Rel.addUser db.users uid } := rfl

/-- Claim C5: in every reachable state of the admin-request store the user ids
of the `admin_requests` rows are pairwise distinct, so each user has at most
one request row and hence at most one pending request. -/
theorem C5_requests_unique_per_user (db : Rel.DB) (h : Rel.ReachableDB db) :
    Rel.uniqueRequestUsers db ∧
    ∀ u, (db.admin_requests.filter
        (fun r => r.user_id == u && r.status == RequestStatus.pending)).length ≤ 1 := by
  have hmain : Rel.uniqueRequestUsers db := by
    induction h with
    | empty => exact List.Pairwise.nil
    | signUp uid email reqRowId now _ ih =>
      rw [handleSignUp_eq]
      split
      · rename_i db2 heq
        apply uniqueRequestUsers_insert ?_ heq
        exact ih
      · exact ih
    | approve requestId userId roleRowId reviewerId now roleOk updateOk _ ih =>
      unfold Rel.handleApproveRequest
      split
      · split
        · exact uniqueRequestUsers_review ih requestId RequestStatus.approved reviewerId now
        · exact ih
      · exact ih
    | reject requestId userId deleteOk _ ih =>
      unfold Rel.handleRejectRequest
      split
      · exact uniqueRequestUsers_deleteUser ih userId
      · exact ih
    | removeAdmin currentUserId adminId adminUserId deleteOk _ ih =>
      unfold Rel.handleRemoveAdmin
      split
      · exact ih
      · split
        · exact uniqueRequestUsers_deleteUser ih adminUserId
        · exact ih
    | addRole row _ ih => exact ih
    | addRequest row _ heq ih => exact uniqueRequestUsers_insert ih heq
    | review requestId status reviewedBy now _ ih =>
      exact uniqueRequestUsers_review ih requestId status reviewedBy now
    | dropUser userId _ ih => exact uniqueRequestUsers_deleteUser ih userId
  refine ⟨hmain, fun u => ?_⟩
  have h1 : ∀ l : List Rel.AdminRequestRow,
      l.Pairwise (fun a b => a.user_id ≠ b.user_id) →
      (l.filter (fun r => r.user_id == u)).length ≤ 1 := by
    intro l hl
    induction l with
    | nil => simp
    | cons a t ih =>
      rcases List.pairwise_cons.mp hl with ⟨ha, ht⟩
      by_cases hu : a.user_id = u
      · have hnil : t.filter (fun r => r.user_id == u) = [] := by
          simp only [List.filter_eq_nil_iff]
          intro r hrt
          simpa using fun e => (ha r hrt) (hu.trans e.symm)
        simp [List.filter_cons, hu, hnil]
      · simp only [List.filter_cons, show (a.user_id == u) = false from by simpa using hu,
          Bool.false_eq_true, if_false]
        exact ih ht
  calc (db.admin_requests.filter
          (fun r => r.user_id == u && r.status == RequestStatus.pending)).length
      ≤ (db.admin_requests.filter (fun r => r.user_id == u)).length := by
        apply List.Sublist.length_le
        apply List.monotone_filter_right
        intro r hr
        exact (Bool.and_elim_left hr)
    _ ≤ 1 := h1 _ hmain

theorem C5_witness :
    Rel.ReachableDB (Rel.handleSignUp Rel.DB.empty "u1" "u1@example.org" "req1" 0) ∧
    (Rel.uniqueRequestUsers (Rel.handleSignUp Rel.DB.empty "u1" "u1@example.org" "req1" 0) ∧
     ∀ u, ((Rel.handleSignUp Rel.DB.empty "u1" "u1@example.org" "req1" 0).admin_requests.filter
        (fun r => r.user_id == u && r.status == RequestStatus.pending)).length ≤ 1) :=
  ⟨Rel.ReachableDB.signUp "u1" "u1@example.org" "req1" 0 Rel.ReachableDB.empty,
   C5_requests_unique_per_user _
     (Rel.ReachableDB.signUp "u1" "u1@example.org" "req1" 0 Rel.ReachableDB.empty)⟩

/-- Mapping an id-preserving update over the albums preserves referential
integrity of the images. -/
theorem imagesHaveAlbums_map_albums {g : Gal.GalleryDB}
    (f : Gal.GalleryAlbum → Gal.GalleryAlbum) (hid : ∀ a, (f a).id = a.id)
    (h : Gal.imagesHaveAlbums g) :
    Gal.imagesHaveAlbums { g with gallery_albums := g.gallery_albums.map f } := by
  intro img hm
  obtain ⟨a, ha, he⟩ := h img hm
  exact ⟨f a, List.mem_map_of_mem f ha, by rw [hid a, he]⟩

/-- Claim C7: deleting an album removes every image row of that album, and in
every reachable gallery state every image row references an existing album
row. -/
theorem C7_album_cascade (g : Gal.GalleryDB) (albumId : String) (h : Gal.Reachable g) :
    (∀ img ∈ (Gal.deleteAlbum g albumId).gallery_images, img.album_id ≠ albumId) ∧
    Gal.imagesHaveAlbums g := by
  constructor
  · intro img hm
    simp only [Gal.deleteAlbum, List.mem_filter, decide_eq_true_eq] at hm
    exact hm.2
  · induction h with
    | empty =>
      intro img hm
      simp [Gal.GalleryDB.empty] at hm
    | createAlbum album _ ih =>
      intro img hm
      obtain ⟨a, ha, he⟩ := ih img hm
      exact ⟨a, by simp [Gal.createAlbum, List.mem_append, ha], he⟩
    | deleteAlbum aid _ ih =>
      intro img hm
      simp only [Gal.deleteAlbum, List.mem_filter, decide_eq_true_eq] at hm
      obtain ⟨a, ha, he⟩ := ih img hm.1
      refine ⟨a, ?_, he⟩
      simp only [Gal.deleteAlbum, List.mem_filter, decide_eq_true_eq]
      exact ⟨ha, by rw [he]; exact hm.2⟩
    | insertImage img0 hprev hok ih =>
      unfold Gal.insertGalleryImage at hok
      split at hok
      · cases hok
        rename_i hany
        intro img hm
        simp only [List.mem_append, List.mem_singleton] at hm
        rcases hm with hm | hm
        · exact ih img hm
        · subst hm
          obtain ⟨a, ha, hpa⟩ := List.any_eq_true.mp hany
          exact ⟨a, ha, by simpa using hpa⟩
      · cases hok
    | deleteImage imageId _ ih =>
      intro img hm
      simp only [Gal.deleteImage, List.mem_filter, decide_eq_true_eq] at hm
      exact ih img hm.1
    | setActive albumId2 isActive _ ih =>
      exact imagesHaveAlbums_map_albums _ (fun a => by split <;> rfl) ih
    | setCover albumId2 url _ ih =>
      exact imagesHaveAlbums_map_albums _ (fun a => by split <;> rfl) ih

theorem C7_witness :
    Gal.Reachable (Gal.createAlbum Gal.GalleryDB.empty albumA) ∧
    ((∀ img ∈ (Gal.deleteAlbum (Gal.createAlbum Gal.GalleryDB.empty albumA) "alb1").gallery_images,
        img.album_id ≠ "alb1") ∧
     Gal.imagesHaveAlbums (Gal.createAlbum Gal.GalleryDB.empty albumA)) :=
  ⟨Gal.Reachable.createAlbum albumA Gal.Reachable.empty,
   C7_album_cascade _ "alb1" (Gal.Reachable.createAlbum albumA Gal.Reachable.empty)⟩
